import Mathlib

/-!
Verification of the ducku_cli documentation-drift auditor.

The development shallowly embeds the two core subsystems:
  * the artifact extraction and existence-verification engine
    (src/use_cases/pattern_search.py, src/core/project.py), and
  * the cross-language unused-module detector
    (src/use_cases/unused_modules.py).

Python strings are embedded as Lean `String`; the string predicates used by
the source (`in`, `startswith`, `endswith`, `lower`, `lstrip`, `split`,
`join`, `pathlib` accessors) are defined below on top of `List Char`.
External collaborators that the core only calls (the per-language import
extractor, the regex match enumerator of SearchPattern, the file system)
are passed in as explicit function parameters.
-/

namespace Ducku

/-- Python `needle in hay` on strings: substring containment. -/
def pyIn (needle hay : String) : Bool :=
  decide (needle.toList <:+: hay.toList)

/-- Python `s.startswith(pre)`. -/
def pyStartswith (s pre : String) : Bool :=
  decide (pre.toList <+: s.toList)

/-- Python `s.endswith(suf)`. -/
def pyEndswith (s suf : String) : Bool :=
  decide (suf.toList <:+ s.toList)

/-- Python `s.lower()` (ASCII case folding, as used on ASCII paths here). -/
def pyLower (s : String) : String :=
  String.mk (s.toList.map Char.toLower)

/-- Python `s.lstrip(c)` for a single strip character. -/
def pyLStrip (c : Char) (s : String) : String :=
  String.mk (s.toList.dropWhile (· = c))

/-- Python `sep.join(xs)`. -/
def pyJoin (sep : String) : List String → String
  | [] => ""
  | [x] => x
  | x :: y :: ys => x ++ sep ++ pyJoin sep (y :: ys)

/-- The components of `pathlib.Path(s)` for a relative path string:
`split` on `/` with empty segments dropped. -/
def pySegs (s : String) : List String :=
  (s.splitOn "/").filter (fun t => !(t == ""))

/-- Python `Path(s).name`: the final path component (empty for an empty path). -/
def pyName (s : String) : String :=
  (pySegs s).getLastD ""

/-- The index of the last dot of a name, as Python `str.rfind('.')`
(`none` when there is no dot). -/
def lastDotIdx (name : String) : Option Nat :=
  match name.toList.reverse.findIdx? (· = '.') with
  | none => none
  | some j => some (name.toList.length - 1 - j)

/-- Python `Path(name).stem`: the name without its suffix.  The suffix is
only recognised when its dot sits strictly inside the name
(`0 < i < len - 1`), matching `pathlib`. -/
def pyStem (name : String) : String :=
  match lastDotIdx name with
  | none => name
  | some i =>
    if 0 < i ∧ i + 1 < name.toList.length then String.mk (name.toList.take i)
    else name

/-- Python `Path(name).suffix`: the extension including its dot, or `""`. -/
def pySuffix (name : String) : String :=
  match lastDotIdx name with
  | none => ""
  | some i =>
    if 0 < i ∧ i + 1 < name.toList.length then String.mk (name.toList.drop i)
    else ""

/-- Python `Path(p).parent` rendered textually: the path with its final
`/`-component removed. -/
def pyParent (p : String) : String :=
  pyJoin "/" ((p.splitOn "/").dropLast)

/-! ## Data model -/

/-- A documentation part (`DocPart` of src/core/documentation.py): its source
identifier, the directory `Source.get_root` reports (when the part is a
file), and the text `read()` returns. -/
structure Doc where
  id : String
  root : Option String
  text : String
deriving DecidableEq, Repr

/-- A project file of the file index: its path and its text content. -/
structure PFile where
  path : String
  content : String
deriving DecidableEq, Repr

/-- The file-system oracle behind `Path.exists`, `Path.is_file` and
`Path.is_dir` (the file system is an external collaborator). -/
structure FS where
  pexists : String → Bool
  pisFile : String → Bool
  pisDir : String → Bool

/-! ## src/core/project.py -/

/-- `OS_ROOT_PATHS` of src/core/project.py, verbatim. -/
def OS_ROOT_PATHS : List String := [
  "~/", "/usr/", "/opt/", "/bin/", "/mnt", "/sbin/", "/lib/", "/etc/", "/var/", "/tmp/", "/home/", "/root/",
  "/path/to", "/directory/",
  "C:\\", "D:\\", "E:\\", "F:\\", "G:\\", "H:\\", "I:\\", "J:\\", "K:\\", "L:\\", "M:\\",
  "N:\\", "O:\\", "P:\\", "Q:\\", "R:\\", "S:\\", "T:\\", "U:\\", "V:\\", "W:\\", "X:\\", "Y:\\", "Z:\\",
  "C:/", "D:/", "E:/", "F:/", "G:/", "H:/", "I:/", "J:/", "K:/", "L:/", "M:/",
  "N:/", "O:/", "P:/", "Q:/", "R:/", "S:/", "T:/", "U:/", "V:/", "W:/", "X:/", "Y:/", "Z:/"]

/-- `Project.contains_string` (src/core/project.py lines 60-67): a linear
scan over the project files, skipping files that are documentation paths,
returning on the first file whose content holds the literal substring.
The `source` argument is accepted and unused, exactly as in the source. -/
def contains_string (project_files : List PFile) (doc_paths : List String)
    (string : String) (_source : Doc) : Bool :=
  project_files.any fun file =>
    !(doc_paths.contains file.path) && pyIn string file.content

/-- `Project.contains_file` (src/core/project.py lines 169-181): the name
exists under the source document's directory as a file, or matches some
project file's base name. -/
def contains_file (fs : FS) (project_files : List PFile)
    (file_name : String) (source : Doc) : Bool :=
  (match source.root with
   | some r =>
     fs.pexists (r ++ "/" ++ file_name) && fs.pisFile (r ++ "/" ++ file_name)
   | none => false)
  || project_files.any (fun file => pyName file.path == file_name)

/-- `MOCK_FILENAME_PATTERNS` of `Project.contains_path`, verbatim. -/
def MOCK_FILENAME_PATTERNS : List String :=
  ["hello", "my_", "path_to", "xxx", "yyy", "zzz", "log_", "log.", "logs.",
   "myfile", "yourfile"]

/-- `MOCK_DIR_PATTERNS` of `Project.contains_path`, verbatim. -/
def MOCK_DIR_PATTERNS : List String := ["/some-dir/", "/some_dir/", "/somedir/"]

/-- `MOCK_PATH_PATTERNS` of `Project.contains_path`, verbatim. -/
def MOCK_PATH_PATTERNS : List String :=
  ["/example.py", "/example.js", "/example.ts",
   "/sample.py", "/sample.js", "/sample.ts"]

/-- `Project.contains_path` (src/core/project.py lines 102-166).  The checks
run in source order: OS root prefixes, placeholder filenames, placeholder
directories, placeholder files, single-segment delegation to
`contains_file`, then resolution relative to the source document's
directory, the project root and each documentation path.  Path joining and
`resolve(strict=False)`/`exists()` are mediated by the `fs` oracle. -/
def contains_path (fs : FS) (project_root : String) (doc_paths : List String)
    (project_files : List PFile) (path : String) (source : Doc) : Bool :=
  if OS_ROOT_PATHS.any (fun pre => pyStartswith path pre) then false
  else
    let candStr := pyLStrip '/' path
    let filename := pyLower (pyName candStr)
    if MOCK_FILENAME_PATTERNS.any (fun excl => pyIn excl filename) then false
    else
      let path_lower := pyLower path
      if MOCK_DIR_PATTERNS.any (fun pat => pyIn pat path_lower) then false
      else if MOCK_PATH_PATTERNS.any (fun pat => pyEndswith path_lower pat) then false
      else if (pySegs candStr).length == 1 then
        contains_file fs project_files (pyName candStr) source
      else
        (match source.root with
         | some r => fs.pexists (r ++ "/" ++ candStr)
         | none => false)
        || fs.pexists (project_root ++ "/" ++ candStr)
        || doc_paths.any (fun doc_path =>
             if fs.pisDir doc_path then fs.pexists (doc_path ++ "/" ++ candStr)
             else if fs.pisFile doc_path then
               fs.pexists (pyParent doc_path ++ "/" ++ candStr)
             else false)

/-! ## src/use_cases/unused_modules.py -/

/-- The `common_src_dirs` set of `UnusedModules.get_module_name_from_file`. -/
def common_src_dirs : List String := ["src", "lib", "app", "source", "code"]

/-- `UnusedModules.get_module_name_from_file` (lines 18-35): the module name
is the file stem; directory parts of the path relative to the project root
survive after dropping common source-directory names and are dot-joined in
front of the stem; with no surviving part the identifier is the stem
alone. `dirParts` is `relative_path.parts[:-1]` and `fileName` the file's
final component, both delivered by `pathlib`. -/
def get_module_name_from_file (dirParts : List String) (fileName : String) : String :=
  let module_name := pyStem fileName
  let filtered_parts := dirParts.filter (fun part => !(common_src_dirs.contains part))
  if filtered_parts.isEmpty then module_name
  else pyJoin "." (filtered_parts ++ [module_name])

/-- The `test_patterns` list of `UnusedModules.is_test_file`, verbatim. -/
def test_patterns : List String :=
  ["/test/", "/tests/", "/testing/", "test_", "_test.", ".test.",
   "spec_", "_spec.", ".spec."]

/-- `UnusedModules.is_test_file` (lines 37-54): any test pattern occurs in
the lowercased full path string. -/
def is_test_file (file_path : String) : Bool :=
  test_patterns.any fun pattern => pyIn pattern (pyLower file_path)

/-- The global `entry_patterns` list of `UnusedModules.is_entry_point_file`,
verbatim. -/
def entry_patterns : List String :=
  ["/bin/", "/features/step_definitions/", "/features/support/",
   "/vendor/", "/packages/"]

/-- The conventional entry file names checked by
`UnusedModules.is_entry_point_file`, verbatim. -/
def main_entry_names : List String :=
  ["main.py", "main.rb", "main.js", "main.ts", "main.java",
   "index.py", "index.rb", "index.js", "index.ts",
   "cli.py", "cli.rb", "cli.js", "cli.ts",
   "__main__.py", "app.py", "app.rb", "server.py", "server.rb"]

/-- `UnusedModules._is_language_specific_entry_point` (lines 108-155). -/
def is_language_specific_entry_point (file_path : String) (ext : String) : Bool :=
  let file_name := pyLower (pyName file_path)
  let file_str := pyLower file_path
  if ext == ".rb" then
    ["winagent", "register.rb"].any fun pattern => pyIn pattern file_str
  else if ext == ".js" then
    ["webpack.config", "rollup.config", "vite.config", "babel.config",
     "jest.config", "eslint.config", "prettier.config", "postcss.config",
     "tailwind.config", "next.config", "nuxt.config", "svelte.config",
     ".config.js"].any fun pattern => pyIn pattern file_name
  else if ext == ".ts" then
    pyEndswith file_name ".d.ts"
    || (["webpack.config", "rollup.config", "vite.config",
         "jest.config", "eslint.config", ".config.ts"].any
          fun pattern => pyIn pattern file_name)
  else if ext == ".java" then
    ["/models/", "/model/", "/dto/", "/entities/", "/handlers/"].any
      fun pattern => pyIn pattern file_str
  else false

/-- The vendor prefixes `is_entry_point_file` strips from the project root
name before the similarity check; Python strips the first matching one. -/
def stripVendorPrefixes (name : String) : String :=
  if pyStartswith name "aws-" then String.mk (name.toList.drop 4)
  else if pyStartswith name "aws_" then String.mk (name.toList.drop 4)
  else if pyStartswith name "amazon-" then String.mk (name.toList.drop 7)
  else if pyStartswith name "amazon_" then String.mk (name.toList.drop 7)
  else name

/-- `UnusedModules.is_entry_point_file` (lines 56-106): global entry-point
directory markers, conventional main-file names, language-specific rules,
then the substring similarity between the file stem and the project root's
directory name. -/
def is_entry_point_file (project_root : String) (file_path : String) : Bool :=
  let file_str := pyLower file_path
  if entry_patterns.any (fun pattern => pyIn pattern file_str) then true
  else
    let file_name := pyLower (pyName file_path)
    if main_entry_names.contains file_name then true
    else
      let ext := pyLower (pySuffix (pyName file_path))
      if is_language_specific_entry_point file_path ext then true
      else
        let file_stem := pyLower (pyStem (pyName file_path))
        let project_root_name := stripVendorPrefixes (pyLower (pyName project_root))
        pyIn project_root_name file_stem || pyIn file_stem project_root_name

/-- A Python `dict` assignment `d[k] = v` on an insertion-ordered
association list: replace in place, or append. -/
def pyDictSet (d : List (String × String)) (k v : String) : List (String × String) :=
  if d.any (fun kv => kv.1 == k) then
    d.map (fun kv => if kv.1 == k then (k, v) else kv)
  else d ++ [(k, v)]

/-- `file_path.relative_to(project_root).parts[:-1]`: the directory parts
of the file below the project root. -/
def relDirParts (project_root : String) (file_path : String) : List String :=
  let rel :=
    if pyStartswith file_path (project_root ++ "/") then
      String.mk (file_path.toList.drop (project_root.length + 1))
    else file_path
  (pySegs rel).dropLast

/-- One iteration of the `collect_all_modules` loop: skip test files, skip
entry points, keep supported files as module entries. -/
def collectModulesStep (project_root : String) (is_supported_format : String → Bool)
    (modules : List (String × String)) (file_path : String) : List (String × String) :=
  if is_test_file file_path then modules
  else if is_entry_point_file project_root file_path then modules
  else if is_supported_format (pyLower (pySuffix (pyName file_path))) then
    pyDictSet modules
      (get_module_name_from_file (relDirParts project_root file_path) (pyName file_path))
      file_path
  else modules

/-- `UnusedModules.collect_all_modules` (lines 159-179): every project file
that is neither a test file nor an entry point and whose (lowercased)
extension the import extractor supports contributes a module entry, keyed
by its canonical identifier. -/
def collect_all_modules (project_root : String) (project_files : List String)
    (is_supported_format : String → Bool) : List (String × String) :=
  project_files.foldl (collectModulesStep project_root is_supported_format) []

/-- The suffix expansion of one raw import in
`UnusedModules.collect_all_imports` (lines 195-212): the raw string, every
dot-suffix, and — when the raw import holds a `/` — every slash-suffix in
its slash-joined and dot-joined renderings. -/
def expandImport (import_name : String) : List String :=
  let parts := import_name.splitOn "."
  let dotSubs := (List.range parts.length).map
    (fun k => pyJoin "." (parts.drop (parts.length - (k + 1))))
  let slashSubs :=
    if import_name.toList.contains '/' then
      let slash_parts := import_name.splitOn "/"
      (List.range slash_parts.length).flatMap (fun k =>
        [pyJoin "/" (slash_parts.drop (slash_parts.length - (k + 1))),
         pyJoin "." (slash_parts.drop (slash_parts.length - (k + 1)))])
    else []
  import_name :: (dotSubs ++ slashSubs)

/-- `UnusedModules.collect_all_imports` (lines 181-212): over every project
file whose extension is supported — test files included — the external
extractor's raw imports, each expanded by `expandImport`, unioned into one
closure (embedded as a list read up to membership, as the Python set is). -/
def collect_all_imports (project_files : List String)
    (is_supported_format : String → Bool)
    (collect_imports_from_content : String → List String) : List String :=
  project_files.flatMap fun file_path =>
    if is_supported_format (pyLower (pySuffix (pyName file_path))) then
      (collect_imports_from_content file_path).flatMap expandImport
    else []

/-- The per-import match test inside `UnusedModules.find_unused_modules`
(lines 233-251): the import's last `len(module_parts)` dot-segments equal
the module's segments, or the module's last `len(import_parts)` segments
equal the import's. -/
def importMatchesModule (import_name module_name : String) : Bool :=
  let import_parts := import_name.splitOn "."
  let module_parts := module_name.splitOn "."
  (decide (module_parts.length ≤ import_parts.length)
     && (import_parts.drop (import_parts.length - module_parts.length) == module_parts))
  || (decide (import_parts.length ≤ module_parts.length)
     && (module_parts.drop (module_parts.length - import_parts.length) == import_parts))

/-- The per-module used test of `find_unused_modules`: exact membership in
the import closure, or a bidirectional suffix match with some import. -/
def is_imported (module_name : String) (all_imports : List String) : Bool :=
  all_imports.contains module_name
  || all_imports.any (fun import_name => importMatchesModule import_name module_name)

/-- The core loop of `UnusedModules.find_unused_modules` (lines 214-253)
over given module and import collections: keep the modules that are not
imported. -/
def find_unused_from (all_modules : List (String × String))
    (all_imports : List String) : List (String × String) :=
  all_modules.filter fun m => !(is_imported m.1 all_imports)

/-- `UnusedModules.find_unused_modules`: the loop applied to the collected
modules and the collected import closure. -/
def find_unused_modules (project_root : String) (project_files : List String)
    (is_supported_format : String → Bool)
    (collect_imports_from_content : String → List String) : List (String × String) :=
  find_unused_from
    (collect_all_modules project_root project_files is_supported_format)
    (collect_all_imports project_files is_supported_format collect_imports_from_content)

/-- `file_path.relative_to(self.project.project_root)` as the report prints it. -/
def relTo (project_root : String) (file_path : String) : String :=
  if pyStartswith file_path (project_root ++ "/") then
    String.mk (file_path.toList.drop (project_root.length + 1))
  else file_path

/-- Insertion into a list sorted by `(module identifier, path)`, for the
report's `sorted(modules)`. -/
def insertSortedPair (x : String × String) : List (String × String) → List (String × String)
  | [] => [x]
  | y :: ys =>
    if decide (x.1 < y.1) || (x.1 == y.1 && decide (x.2 ≤ y.2)) then x :: y :: ys
    else y :: insertSortedPair x ys

/-- `sorted(modules)` on `(module_name, file_path)` pairs. -/
def sortPairs (l : List (String × String)) : List (String × String) :=
  l.foldr insertSortedPair []

/-- The `by_extension` grouping of `UnusedModules.report`: a Python dict
from extension to the modules carrying it, in insertion order. -/
def groupByExtension (unused : List (String × String)) :
    List (String × List (String × String)) :=
  unused.foldl (fun groups mv =>
    let ext := pyLower (pySuffix (pyName mv.2))
    if groups.any (fun g => g.1 == ext) then
      groups.map (fun g => if g.1 == ext then (g.1, g.2 ++ [mv]) else g)
    else groups ++ [(ext, [mv])]) []

/-- `UnusedModules.report` (lines 255-282): the empty string when no module
is unused, otherwise a header, per-extension groups sorted by
`(module identifier, path)`, and a total count. -/
def unused_modules_report (project_root : String) (project_files : List String)
    (is_supported_format : String → Bool)
    (collect_imports_from_content : String → List String) : String :=
  let unused := find_unused_modules project_root project_files
    is_supported_format collect_imports_from_content
  if unused.isEmpty then ""
  else
    let header := "Found " ++ toString unused.length ++ " unused modules:\n\n"
    let body := (groupByExtension unused).foldl (fun acc g =>
      acc ++ "\n" ++ g.1 ++ " modules:\n"
        ++ String.mk (List.replicate (g.1.length + 9) '-') ++ "\n"
        ++ (sortPairs g.2).foldl (fun lines mv =>
             lines ++ "  - " ++ mv.1 ++ " (" ++ relTo project_root mv.2 ++ ")\n") "") ""
    header ++ body ++ "\nTotal unused modules: " ++ toString unused.length

/-! ## src/use_cases/pattern_search.py -/

/-- A pattern rule (`SearchPattern` of src/core/search_pattern.py as
constructed in src/use_cases/pattern_search.py): a name, the regular
expression's source text, and the ordered filter-predicate names. -/
structure SearchPattern where
  name : String
  regex : String
  filters : List String
deriving DecidableEq, Repr

/-- The `exts` alternation of pattern_search.py, verbatim. -/
def exts : String :=
  "(?:ya?ml|jsonl?|toml|ini|cfg|conf|properties|props|xml|html?|xhtml|css|less|scss|"
  ++ "js|mjs|cjs|jsx|ts|tsx|py|ipynb|rb|php|java|kt|kts|scala|go|rs|c|h|hh|hpp|hxx|cc|cxx|"
  ++ "cpp|cs|swift|m|mm|pl|pm|sh|bash|zsh|ps1|psm1|bat|cmd|lua|r|jl|sql|csv|tsv|parquet|"
  ++ "orc|avro|proto|thrift|graphql|gql|md|markdown|adoc|rst|log|txt)"

/-- `path_patterns` of pattern_search.py: the Unix and Windows path rules
with their regex sources (after f-string substitution) and filters. -/
def path_patterns : List SearchPattern :=
  [⟨"Unix path",
    "(?:(?<=^)|(?<=\\s)|(?<=[\\(\\[\\\x7b\"\\\x27\x60]))"
      ++ "(?:\\.\x7b0,2\x7d/|~/|/(?!/))(?![^\\s\\\x27\"\\)\\]>\\\x7b\\\x7d<>]*//)"
      ++ "[^\\s\\\x27\"\\)\\]>\\\x7b\\\x7d<>]+\\." ++ exts ++ "\\b",
    ["not_mocked"]⟩,
   ⟨"Windows path",
    "(?:(?<=^)|(?<=\\s)|(?<=[\\(\\[\\\x7b\"\\\x27\x60]))"
      ++ "(?:[A-Za-z]:\\\\|\\\\\\\\)"
      ++ "[^\\s\\\x27\"\\)\\]>\\\x7b\\\x7d<>]+\\." ++ exts ++ "\\b",
    []⟩]

/-- `files_patterns` of pattern_search.py: the bare-filename rule. -/
def files_patterns : List SearchPattern :=
  [⟨"Filename",
    "(?<!\\w)(?<!://)[A-Za-z0-9._-]+\\." ++ exts ++ "\\b",
    ["file_not_in_url", "file_not_in_exclusions", "file_is_not_path"]⟩]

/-- `string_patterns` of pattern_search.py: the TCP-port and
environment-variable rules. -/
def string_patterns : List SearchPattern :=
  [⟨"TCP port",
    "(?:(?<=^)|(?<=[ :]))(?:0|[1-9]\\d\x7b0,4\x7d)(?![.\\w-])",
    ["is_port_context"]⟩,
   ⟨"Environment variable",
    "(?<!\\w)(?:[A-Z][A-Z0-9_]\x7b2,63\x7d)\\b",
    ["is_env_var_context", "contains_"]⟩]

/-- An extraction result (`Artifact` of pattern_search.py): the rule, the
matched substring, and the source document. -/
structure Artifact where
  pattern : SearchPattern
  matchStr : String
  source : Doc
deriving DecidableEq, Repr

/-- The control characters counted by `collect_docs_artifacts`: code below
32 that is not newline, carriage return or tab. -/
def ccBad (c : Char) : Bool :=
  decide (c.toNat < 32) && !(c == '\n' || c == '\r' || c == '\t')

/-- `sum(1 for c in cs if ord(c) < 32 and c not in chr(10) chr(13) chr(9))`. -/
def controlCount (cs : List Char) : Nat :=
  (cs.filter ccBad).length

/-- The binary-content heuristic of `collect_docs_artifacts` (line 56): a
null byte anywhere, or more than 30 control characters among the first
1000 characters. -/
def isBinaryLike (text : String) : Bool :=
  text.toList.contains '\x00'
  || decide (controlCount (text.toList.take 1000) > 30)

/-- The inner match loop of `collect_docs_artifacts` (lines 60-72): each
match is dropped when it holds a control character, deduplicated against
the cache of already-seen match strings, and otherwise appended as a new
artifact whose source is the current document. -/
def processMatches (pattern : SearchPattern) (dp : Doc) :
    List String → List String × List Artifact → List String × List Artifact
  | [], st => st
  | m :: ms, (seen, arts) =>
    if decide (controlCount m.toList > 0) then processMatches pattern dp ms (seen, arts)
    else if seen.contains m then processMatches pattern dp ms (seen, arts)
    else processMatches pattern dp ms (m :: seen, arts ++ [⟨pattern, m, dp⟩])

/-- The document loop of `collect_docs_artifacts` for one pattern:
binary-looking documents are skipped whole. -/
def collectDocsLoop (find_all : SearchPattern → Doc → List String)
    (pattern : SearchPattern) :
    List Doc → List String × List Artifact → List String × List Artifact
  | [], st => st
  | dp :: dps, st =>
    if isBinaryLike dp.text then collectDocsLoop find_all pattern dps st
    else collectDocsLoop find_all pattern dps
      (processMatches pattern dp (find_all pattern dp) st)

/-- The outer pattern loop of `collect_docs_artifacts`; the cache is shared
across patterns, exactly as in the source. -/
def collectPatternsLoop (find_all : SearchPattern → Doc → List String) :
    List SearchPattern → List Doc → List String × List Artifact →
      List String × List Artifact
  | [], _, st => st
  | pattern :: patterns, docs, st =>
    collectPatternsLoop find_all patterns docs (collectDocsLoop find_all pattern docs st)

/-- `collect_docs_artifacts` (pattern_search.py lines 48-76) over the
project's documentation parts.  `find_all` is `SearchPattern.find_all`
(regex matching plus the rule's filter predicates), an external
collaborator passed in as a function. -/
def collect_docs_artifacts (find_all : SearchPattern → Doc → List String)
    (doc_parts : List Doc) (patterns : List SearchPattern) : List Artifact :=
  (collectPatternsLoop find_all patterns doc_parts ([], [])).2

/-! ### The TCP-port regular expression

`re.finditer` semantics for the concrete pattern
`(?:(?<=^)|(?<=[ :]))(?:0|[1-9]\d{0,4})(?![.\w-])` of `string_patterns`
(pattern_search.py line 37): a match may start at position 0 or after a
space or colon; the ordered alternation tries `0` first, then a nonzero
digit followed greedily by up to four digits with backtracking against the
negative lookahead; matches are non-overlapping, leftmost first. -/

/-- `\w` of the pattern on its ASCII alphabet. -/
def isWordChar (c : Char) : Bool := c.isAlphanum || c == '_'

/-- The negative lookahead `(?![.\w-])`. -/
def portNoFollow : List Char → Bool
  | [] => true
  | c :: _ => !(c == '.' || isWordChar c || c == '-')

/-- Greedy `\d{0,4}` with backtracking: try `i` further digits, then fewer,
accepting the longest tail that leaves the lookahead satisfied. -/
def portBacktrack (c : Char) (rest : List Char) : Nat → Option (List Char × List Char)
  | 0 => if portNoFollow rest then some ([c], rest) else none
  | i + 1 =>
    let taken := rest.take (i + 1)
    if decide (taken.length = i + 1) && taken.all Char.isDigit
        && portNoFollow (rest.drop (i + 1)) then
      some (c :: taken, rest.drop (i + 1))
    else portBacktrack c rest i

/-- One match attempt of `(?:0|[1-9]\d{0,4})(?![.\w-])` at the head of the
text (the lookbehind is checked by the scanner). -/
def portTryAt : List Char → Option (List Char × List Char)
  | [] => none
  | c :: rest =>
    if c == '0' then
      if portNoFollow rest then some (['0'], rest) else none
    else if decide ('1' ≤ c) && decide (c ≤ '9') then portBacktrack c rest 4
    else none

/-- The left-to-right scan of `re.finditer`: `prevOk` holds when the current
position passes the lookbehind `(?:(?<=^)|(?<=[ :]))`; after a match the
scan resumes past it (its last character is a digit, so `prevOk` is
false).  `fuel` bounds the recursion; any `fuel` past the text's length is
enough. -/
def portScanAux : Nat → List Char → Bool → List (List Char)
  | 0, _, _ => []
  | _ + 1, [], _ => []
  | fuel + 1, c :: rest, prevOk =>
    if prevOk then
      match portTryAt (c :: rest) with
      | some (m, after) => m :: portScanAux fuel after false
      | none => portScanAux fuel rest (c == ' ' || c == ':')
    else portScanAux fuel rest (c == ' ' || c == ':')

/-- All matches of the TCP-port rule's regular expression in a string. -/
def portFindAll (s : String) : List String :=
  (portScanAux (s.toList.length + 1) s.toList true).map (fun m => String.mk m)

/-- The Python errors the embedded pipeline can surface. -/
inductive PyErr
  | typeError
deriving DecidableEq, Repr

/-- A Python call of a function of two required positional parameters with a
single argument: CPython raises `TypeError` before the body runs.  The
function and the one argument are recorded to depict the call site. -/
def pyCall2as1 {α β γ : Type} (_f : α → β → γ) (_a : α) : Except PyErr γ :=
  Except.error PyErr.typeError

/-- A Python project handle as `report` consumes it. -/
structure Proj where
  project_root : String
  project_files : List PFile
  doc_paths : List String
  doc_parts : List Doc
  fs : FS

/-- One diagnostic line of `report` for a string artifact. -/
def stringLine (a : Artifact) : String :=
  "String \x27" ++ a.matchStr ++ "\x27 found in " ++ a.source.id
    ++ ", but nowhere in the project. Probably outdated artifact\n"

/-- One diagnostic line of `report` for a path artifact. -/
def pathLine (a : Artifact) : String :=
  "Path \x27" ++ a.matchStr ++ "\x27 found in " ++ a.source.id
    ++ ", but nowhere in the project. Probably outdated artifact\n"

/-- One diagnostic line of `report` for a filename artifact. -/
def fileLine (a : Artifact) : String :=
  "File \x27" ++ a.matchStr ++ "\x27 found in " ++ a.source.id
    ++ ", but nowhere in the project. Probably outdated artifact\n"

/-- The string-artifact loop of `report` (lines 82-84): the source calls
`p.contains_string(artifact.match)` — one argument for a method of two
required parameters — so the call raises before any line is appended. -/
def reportStringsLoop (p : Proj) : List Artifact → String → Except PyErr String
  | [], acc => Except.ok acc
  | a :: rest, acc =>
    match pyCall2as1 (contains_string p.project_files p.doc_paths) a.matchStr with
    | Except.error e => Except.error e
    | Except.ok found =>
      reportStringsLoop p rest (if !found then acc ++ stringLine a else acc)

/-- The path-artifact loop of `report` (lines 87-90):
`p.contains_path(artifact.match, artifact.source)` is a well-formed call. -/
def reportPathsLoop (p : Proj) : List Artifact → String → String
  | [], acc => acc
  | a :: rest, acc =>
    let found := contains_path p.fs p.project_root p.doc_paths p.project_files
      a.matchStr a.source
    reportPathsLoop p rest (if !found then acc ++ pathLine a else acc)

/-- The filename-artifact loop of `report` (lines 93-96): the source calls
`p.contains_file(artifact.match)` — again one argument for a method of two
required parameters. -/
def reportFilesLoop (p : Proj) : List Artifact → String → Except PyErr String
  | [], acc => Except.ok acc
  | a :: rest, acc =>
    match pyCall2as1 (contains_file p.fs p.project_files) a.matchStr with
    | Except.error e => Except.error e
    | Except.ok found =>
      reportFilesLoop p rest (if !found then acc ++ fileLine a else acc)

/-- `report` of pattern_search.py (lines 78-97): string artifacts, then path
artifacts, then filename artifacts, each family collected from the
project's documentation parts by `collect_docs_artifacts`. -/
def pattern_search_report (find_all : SearchPattern → Doc → List String)
    (p : Proj) : Except PyErr String :=
  match reportStringsLoop p
      (collect_docs_artifacts find_all p.doc_parts string_patterns) "" with
  | Except.error e => Except.error e
  | Except.ok r1 =>
    let r2 := reportPathsLoop p
      (collect_docs_artifacts find_all p.doc_parts path_patterns) r1
    reportFilesLoop p
      (collect_docs_artifacts find_all p.doc_parts files_patterns) r2

/-! ## Helper lemmas -/

theorem stringMk_eq_empty_iff (l : List Char) : String.mk l = "" ↔ l = [] := by
  constructor
  · intro h
    simpa using congrArg String.data h
  · intro h
    simp [h]

theorem pyStem_ne_empty {name : String} (h : name ≠ "") : pyStem name ≠ "" := by
  unfold pyStem
  cases hidx : lastDotIdx name with
  | none => exact h
  | some i =>
    dsimp only
    by_cases hcond : 0 < i ∧ i + 1 < name.toList.length
    · rw [if_pos hcond]
      intro hc
      rw [stringMk_eq_empty_iff, ← List.length_eq_zero, List.length_take] at hc
      omega
    · rw [if_neg hcond]
      exact h

theorem pyJoin_append_singleton_ne_empty (l : List String) {s : String} (h : s ≠ "") :
    pyJoin "." (l ++ [s]) ≠ "" := by
  cases l with
  | nil => simpa using h
  | cons a t =>
    cases htl : t ++ [s] with
    | nil => simp at htl
    | cons y ys =>
      have hstep : pyJoin "." (a :: t ++ [s]) = a ++ "." ++ pyJoin "." (y :: ys) := by
        rw [List.cons_append, htl]
        simp [pyJoin]
      rw [hstep]
      intro hc
      have hlen := congrArg String.length hc
      rw [String.length_append, String.length_append,
        show ("." : String).length = 1 from rfl,
        show ("" : String).length = 0 from rfl] at hlen
      omega

theorem dropCompare_eq_true_iff (l₁ l₂ : List String) :
    ((decide (l₁.length ≤ l₂.length)
       && (l₂.drop (l₂.length - l₁.length) == l₁)) = true) ↔ l₁ <:+ l₂ := by
  rw [Bool.and_eq_true, decide_eq_true_iff, beq_iff_eq]
  constructor
  · rintro ⟨hle, hdrop⟩
    refine ⟨l₂.take (l₂.length - l₁.length), ?_⟩
    conv_rhs => rw [← List.take_append_drop (l₂.length - l₁.length) l₂]
    rw [hdrop]
  · rintro ⟨t, rfl⟩
    have hlen : (t ++ l₁).length - l₁.length = t.length := by
      simp [List.length_append]
    refine ⟨by simp [List.length_append], ?_⟩
    rw [hlen, List.drop_left]

theorem importMatchesModule_eq_true_iff (import_name module_name : String) :
    importMatchesModule import_name module_name = true ↔
      (module_name.splitOn "." <:+ import_name.splitOn ".")
        ∨ (import_name.splitOn "." <:+ module_name.splitOn ".") := by
  unfold importMatchesModule
  rw [Bool.or_eq_true, dropCompare_eq_true_iff, dropCompare_eq_true_iff]

/-! ## Claim theorems -/

/-- Claim C1.  The spec says `Project.contains_path` reports a candidate
path that begins with a known OS/filesystem root prefix as existing
(returns true) so that no drift finding is emitted.  The code does the
opposite: for the spec's own example `/path/to/config.yml` it returns
`false` for every file system, project layout, documentation-path set and
source document — `report` would therefore emit a drift line, not
suppress one. -/
theorem contains_path_os_root_false (fs : FS) (project_root : String)
    (doc_paths : List String) (project_files : List PFile) (source : Doc) :
    contains_path fs project_root doc_paths project_files
      "/path/to/config.yml" source = false := rfl

/-- Claim C5.  The TCP-port rule's regular expression is claimed to match
only bare integers in 0–65535.  Evaluating the embedded expression
(`(?:(?<=^)|(?<=[ :]))(?:0|[1-9]\d{0,4})(?![.\w-])`, the regex of
`string_patterns`'s TCP-port rule) on the failing input `port: 70000`:
it matches the bare integer 70000, which exceeds 65535 — the pattern
accepts any integer of up to five digits, so every value up to 99999
matches. -/
theorem tcp_port_regex_matches_70000 : portFindAll "port: 70000" = ["70000"] := by
  decide

/-- Claim C7.  `Project.contains_string` returns true iff some project file
that is not in the documentation-path set contains the literal substring;
files of the documentation set are skipped, so a documentation file never
satisfies an existence check through its own content. -/
theorem contains_string_iff (project_files : List PFile) (doc_paths : List String)
    (string : String) (source : Doc) :
    contains_string project_files doc_paths string source = true ↔
      ∃ f ∈ project_files, f.path ∉ doc_paths ∧ pyIn string f.content = true := by
  simp [contains_string, List.any_eq_true, List.contains, and_assoc]

/-- Claim C9.  For every qualifying file the canonical module identifier of
`get_module_name_from_file` equals the dot-join of the directory segments
that survive stripping the common source roots, followed by the file
stem; with no surviving segment it is exactly the stem; and for a
nonempty file name the identifier is never the empty string. -/
theorem get_module_name_spec (dirParts : List String) (fileName : String)
    (h : fileName ≠ "") :
    get_module_name_from_file dirParts fileName =
        pyJoin "." ((dirParts.filter (fun part => !(common_src_dirs.contains part)))
          ++ [pyStem fileName])
      ∧ get_module_name_from_file dirParts fileName ≠ "" := by
  unfold get_module_name_from_file
  cases hf : dirParts.filter (fun part => !(common_src_dirs.contains part)) with
  | nil =>
    constructor
    · simp [pyJoin]
    · simpa using pyStem_ne_empty h
  | cons a t =>
    constructor
    · simp
    · simpa using pyJoin_append_singleton_ne_empty (a :: t) (pyStem_ne_empty h)

/-- Claim C2.  `find_unused_modules` reports a module entry as unused iff
its identifier is not exactly in the import closure, no import's trailing
dot-segments equal the module identifier's full segment sequence, and the
identifier's trailing dot-segments equal no import's full segment
sequence — the suffix match is symmetric in direction. -/
theorem find_unused_from_iff (all_modules : List (String × String))
    (all_imports : List String) (m : String × String) :
    m ∈ find_unused_from all_modules all_imports ↔
      m ∈ all_modules ∧ m.1 ∉ all_imports ∧
        ∀ i ∈ all_imports,
          ¬ (m.1.splitOn "." <:+ i.splitOn ".")
            ∧ ¬ (i.splitOn "." <:+ m.1.splitOn ".") := by
  rw [find_unused_from, List.mem_filter]
  have hsplit : ∀ i : String, ¬ (importMatchesModule i m.1 = true) ↔
      ¬ (m.1.splitOn "." <:+ i.splitOn ".") ∧ ¬ (i.splitOn "." <:+ m.1.splitOn ".") := by
    intro i
    rw [importMatchesModule_eq_true_iff, not_or]
  constructor
  · rintro ⟨hmem, hni⟩
    rw [Bool.not_eq_true', is_imported, Bool.or_eq_false_iff] at hni
    obtain ⟨hc, hany⟩ := hni
    rw [List.any_eq_false] at hany
    refine ⟨hmem, ?_, ?_⟩
    · intro hmm
      rw [show all_imports.contains m.1 = List.elem m.1 all_imports from rfl] at hc
      simp [List.elem_iff] at hc
      exact hc hmm
    · intro i hi
      exact (hsplit i).mp (hany i hi)
  · rintro ⟨hmem, hnc, hall⟩
    refine ⟨hmem, ?_⟩
    rw [Bool.not_eq_true', is_imported, Bool.or_eq_false_iff]
    constructor
    · rw [show all_imports.contains m.1 = List.elem m.1 all_imports from rfl]
      simp [List.elem_iff]
      exact hnc
    · rw [List.any_eq_false]
      intro i hi
      exact (hsplit i).mpr (hall i hi)

theorem mem_expandImport_raw (raw : String) : raw ∈ expandImport raw := by
  simp [expandImport]

theorem drop_sub_length_of_append {α : Type} (t ps : List α) :
    (t ++ ps).drop ((t ++ ps).length - ps.length) = ps := by
  rw [List.length_append,
    show t.length + ps.length - ps.length = t.length from by omega]
  exact List.drop_left t ps

theorem mem_expandImport_dot (raw : String) (ps : List String) (hne : ps ≠ [])
    (hsuf : ps <:+ raw.splitOn ".") : pyJoin "." ps ∈ expandImport raw := by
  obtain ⟨t, ht⟩ := hsuf
  have hlen := congrArg List.length ht
  rw [List.length_append] at hlen
  have hps : 0 < ps.length := List.length_pos.mpr hne
  unfold expandImport
  refine List.mem_cons_of_mem _ (List.mem_append_left _ ?_)
  rw [List.mem_map]
  refine ⟨ps.length - 1, ?_, ?_⟩
  · rw [List.mem_range]
    omega
  · rw [show ps.length - 1 + 1 = ps.length from by omega, ← ht]
    rw [drop_sub_length_of_append]

theorem mem_expandImport_slash (raw : String) (ps : List String)
    (hslash : raw.toList.contains '/' = true) (hne : ps ≠ [])
    (hsuf : ps <:+ raw.splitOn "/") :
    pyJoin "/" ps ∈ expandImport raw ∧ pyJoin "." ps ∈ expandImport raw := by
  obtain ⟨t, ht⟩ := hsuf
  have hlen := congrArg List.length ht
  rw [List.length_append] at hlen
  have hps : 0 < ps.length := List.length_pos.mpr hne
  have hmem : ∀ x : String,
      x ∈ [pyJoin "/" ((raw.splitOn "/").drop ((raw.splitOn "/").length - (ps.length - 1 + 1))),
           pyJoin "." ((raw.splitOn "/").drop ((raw.splitOn "/").length - (ps.length - 1 + 1)))] →
      x ∈ expandImport raw := by
    intro x hx
    unfold expandImport
    refine List.mem_cons_of_mem _ (List.mem_append_right _ ?_)
    rw [if_pos hslash, List.mem_flatMap]
    refine ⟨ps.length - 1, ?_, hx⟩
    rw [List.mem_range]
    omega
  have hdrop : (raw.splitOn "/").drop ((raw.splitOn "/").length - (ps.length - 1 + 1)) = ps := by
    rw [show ps.length - 1 + 1 = ps.length from by omega, ← ht, drop_sub_length_of_append]
  constructor
  · have := hmem _ (List.mem_cons_self _ _)
    rwa [hdrop] at this
  · have := hmem _ (List.mem_cons_of_mem _ (List.mem_cons_self _ _))
    rwa [hdrop] at this

theorem mem_collect_all_imports_iff (project_files : List String)
    (is_supported_format : String → Bool)
    (collect_imports_from_content : String → List String) (x : String) :
    x ∈ collect_all_imports project_files is_supported_format
        collect_imports_from_content ↔
      ∃ g ∈ project_files,
        is_supported_format (pyLower (pySuffix (pyName g))) = true ∧
        ∃ r ∈ collect_imports_from_content g, x ∈ expandImport r := by
  unfold collect_all_imports
  rw [List.mem_flatMap]
  constructor
  · rintro ⟨g, hg, hx⟩
    by_cases hsup : is_supported_format (pyLower (pySuffix (pyName g))) = true
    · rw [if_pos hsup, List.mem_flatMap] at hx
      obtain ⟨r, hr, hxr⟩ := hx
      exact ⟨g, hg, hsup, r, hr, hxr⟩
    · rw [if_neg hsup] at hx
      simp at hx
  · rintro ⟨g, hg, hsup, r, hr, hxr⟩
    refine ⟨g, hg, ?_⟩
    rw [if_pos hsup, List.mem_flatMap]
    exact ⟨r, hr, hxr⟩

/-- Claim C4.  For every raw import collected from a supported project file
(tests included, since no file is excluded), the import closure contains
the raw string, every dot-delimited suffix of it, and — when the raw
string holds a `/` — every slash-delimited suffix in both its
slash-joined and dot-joined renderings; and the closure holds exactly the
union of these expansions over all project files. -/
theorem collect_all_imports_closure (project_files : List String)
    (is_supported_format : String → Bool)
    (collect_imports_from_content : String → List String) (f raw : String)
    (hf : f ∈ project_files)
    (hs : is_supported_format (pyLower (pySuffix (pyName f))) = true)
    (hr : raw ∈ collect_imports_from_content f) :
    raw ∈ collect_all_imports project_files is_supported_format
        collect_imports_from_content
    ∧ (∀ ps, ps ≠ [] → ps <:+ raw.splitOn "." →
        pyJoin "." ps ∈ collect_all_imports project_files is_supported_format
          collect_imports_from_content)
    ∧ (raw.toList.contains '/' = true → ∀ ps, ps ≠ [] → ps <:+ raw.splitOn "/" →
        pyJoin "/" ps ∈ collect_all_imports project_files is_supported_format
            collect_imports_from_content
          ∧ pyJoin "." ps ∈ collect_all_imports project_files is_supported_format
              collect_imports_from_content)
    ∧ (∀ x, x ∈ collect_all_imports project_files is_supported_format
          collect_imports_from_content ↔
        ∃ g ∈ project_files,
          is_supported_format (pyLower (pySuffix (pyName g))) = true ∧
          ∃ r ∈ collect_imports_from_content g, x ∈ expandImport r) := by
  have hof : ∀ x, x ∈ expandImport raw →
      x ∈ collect_all_imports project_files is_supported_format
        collect_imports_from_content := by
    intro x hx
    rw [mem_collect_all_imports_iff]
    exact ⟨f, hf, hs, raw, hr, hx⟩
  refine ⟨hof raw (mem_expandImport_raw raw), ?_, ?_, ?_⟩
  · intro ps hne hsuf
    exact hof _ (mem_expandImport_dot raw ps hne hsuf)
  · intro hslash ps hne hsuf
    obtain ⟨h1, h2⟩ := mem_expandImport_slash raw ps hslash hne hsuf
    exact ⟨hof _ h1, hof _ h2⟩
  · intro x
    exact mem_collect_all_imports_iff project_files is_supported_format
      collect_imports_from_content x

/-- Witness for C4 at a concrete project: the raw import `a/b` of the one
supported file `pkg/m.py` is in the closure. -/
theorem collect_all_imports_closure_witness :
    ("a/b" : String) ∈ collect_all_imports ["pkg/m.py"] (fun _ => true)
      (fun _ => ["a/b"]) :=
  (collect_all_imports_closure ["pkg/m.py"] (fun _ => true) (fun _ => ["a/b"])
    "pkg/m.py" "a/b" (by simp) rfl (by simp)).1

/-- Witness for C9 at a concrete file: `src/models/user.py` gets identifier
`models.user`, which is the dot-join of the surviving directory parts and
the stem, and is nonempty. -/
theorem get_module_name_spec_witness :
    ("user.py" : String) ≠ ""
    ∧ (get_module_name_from_file ["src", "models"] "user.py" =
        pyJoin "." ((["src", "models"].filter
          (fun part => !(common_src_dirs.contains part))) ++ [pyStem "user.py"])
      ∧ get_module_name_from_file ["src", "models"] "user.py" ≠ "") :=
  ⟨by decide, get_module_name_spec ["src", "models"] "user.py" (by decide)⟩

theorem stringMk_append (x y : List Char) :
    String.mk (x ++ y) = String.mk x ++ String.mk y := rfl

theorem pyLower_append (a b : String) :
    pyLower (a ++ b) = pyLower a ++ pyLower b := by
  simp [pyLower, String.toList, List.map_append, stringMk_append]

theorem pyIn_append_right (n a b : String) (h : pyIn n a = true) :
    pyIn n (a ++ b) = true := by
  rw [pyIn, decide_eq_true_iff] at *
  obtain ⟨s, t, hst⟩ := h
  refine ⟨s, t ++ b.toList, ?_⟩
  rw [show (a ++ b).toList = a.toList ++ b.toList from by simp [String.toList], ← hst]
  simp

theorem pyIn_lower_path_lift (mk root r : String)
    (hin : pyIn mk (pyLower root) = true) :
    pyIn mk (pyLower (root ++ "/" ++ r)) = true := by
  rw [pyLower_append, pyLower_append]
  exact pyIn_append_right _ _ _ (pyIn_append_right _ _ _ hin)

theorem is_test_file_of_marker (path mk : String) (hmk : mk ∈ test_patterns)
    (hin : pyIn mk (pyLower path) = true) : is_test_file path = true := by
  rw [is_test_file, List.any_eq_true]
  exact ⟨mk, hmk, hin⟩

theorem is_entry_point_file_of_marker (project_root path mk : String)
    (hmk : mk ∈ entry_patterns) (hin : pyIn mk (pyLower path) = true) :
    is_entry_point_file project_root path = true := by
  unfold is_entry_point_file
  have hc : entry_patterns.any (fun pattern => pyIn pattern (pyLower path)) = true :=
    List.any_eq_true.mpr ⟨mk, hmk, hin⟩
  simp [hc]

theorem collect_all_modules_all_skipped (project_root : String)
    (paths : List String) (is_supported_format : String → Bool)
    (hskip : ∀ p ∈ paths,
      is_test_file p = true ∨ is_entry_point_file project_root p = true) :
    collect_all_modules project_root paths is_supported_format = [] := by
  unfold collect_all_modules
  have key : ∀ (ps : List String) (acc : List (String × String)),
      (∀ p ∈ ps, is_test_file p = true ∨ is_entry_point_file project_root p = true) →
      ps.foldl (collectModulesStep project_root is_supported_format) acc = acc := by
    intro ps
    induction ps with
    | nil => intro acc _; rfl
    | cons p ps ih =>
      intro acc hall
      rw [List.foldl_cons]
      have hstep : collectModulesStep project_root is_supported_format acc p = acc := by
        rcases hall p (by simp) with h1 | h2
        · simp [collectModulesStep, h1]
        · by_cases h1 : is_test_file p = true
          · simp [collectModulesStep, h1]
          · simp [collectModulesStep, h1, h2]
      rw [hstep]
      exact ih acc (fun q hq => hall q (by simp [hq]))
  exact key paths [] hskip

/-- Claim C10.  Test-file and entry-point classification are substring tests
over the file's full lowercased path string, directories above the
project root included: when the project root itself contains a test
marker or a global entry-point marker, every file under it is classified
as a test or entry point, `collect_all_modules` is empty, and the
unused-modules report is the empty string. -/
theorem root_marker_empties_unused_report (root : String) (rels : List String)
    (is_supported_format : String → Bool)
    (collect_imports_from_content : String → List String)
    (h : (test_patterns ++ entry_patterns).any
      (fun mk => pyIn mk (pyLower root)) = true) :
    collect_all_modules root (rels.map (fun r => root ++ "/" ++ r))
        is_supported_format = []
    ∧ unused_modules_report root (rels.map (fun r => root ++ "/" ++ r))
        is_supported_format collect_imports_from_content = "" := by
  rw [List.any_eq_true] at h
  obtain ⟨mk, hmk, hin⟩ := h
  rw [List.mem_append] at hmk
  have hskip : ∀ p ∈ rels.map (fun r => root ++ "/" ++ r),
      is_test_file p = true ∨ is_entry_point_file root p = true := by
    intro p hp
    rw [List.mem_map] at hp
    obtain ⟨r, _, rfl⟩ := hp
    rcases hmk with hT | hE
    · exact Or.inl (is_test_file_of_marker _ mk hT (pyIn_lower_path_lift mk root r hin))
    · exact Or.inr (is_entry_point_file_of_marker root _ mk hE
        (pyIn_lower_path_lift mk root r hin))
  have hempty := collect_all_modules_all_skipped root _ is_supported_format hskip
  refine ⟨hempty, ?_⟩
  unfold unused_modules_report find_unused_modules
  rw [hempty]
  rfl

/-- Witness for C10: a project whose root lies under a `/test/` directory
has no module entries and an empty unused-modules report. -/
theorem root_marker_empties_unused_report_witness :
    collect_all_modules "/home/u/test/proj"
        (["a.py"].map (fun r => "/home/u/test/proj" ++ "/" ++ r)) (fun _ => true) = []
    ∧ unused_modules_report "/home/u/test/proj"
        (["a.py"].map (fun r => "/home/u/test/proj" ++ "/" ++ r)) (fun _ => true)
        (fun _ => []) = "" :=
  root_marker_empties_unused_report "/home/u/test/proj" ["a.py"]
    (fun _ => true) (fun _ => []) (by decide)

/-- Claim C3.  `report` of pattern_search.py calls `Project.contains_string`
and `Project.contains_file` with a single argument although both require
a further `source` argument: whenever the string rules or the filename
rule yield at least one artifact the report raises `TypeError`, and it
completes (returning the path-rule lines) exactly when both families
yield none. -/
theorem pattern_search_report_arity (find_all : SearchPattern → Doc → List String)
    (p : Proj) :
    ((collect_docs_artifacts find_all p.doc_parts string_patterns ≠ [] ∨
        collect_docs_artifacts find_all p.doc_parts files_patterns ≠ []) →
      pattern_search_report find_all p = Except.error PyErr.typeError)
    ∧ (collect_docs_artifacts find_all p.doc_parts string_patterns = [] →
        collect_docs_artifacts find_all p.doc_parts files_patterns = [] →
        pattern_search_report find_all p = Except.ok (reportPathsLoop p
          (collect_docs_artifacts find_all p.doc_parts path_patterns) "")) := by
  constructor
  · intro hor
    cases hS : collect_docs_artifacts find_all p.doc_parts string_patterns with
    | cons a rest =>
      unfold pattern_search_report
      rw [hS]
      rfl
    | nil =>
      cases hF : collect_docs_artifacts find_all p.doc_parts files_patterns with
      | cons a rest =>
        unfold pattern_search_report
        rw [hS, hF]
        rfl
      | nil =>
        rcases hor with hor | hor
        · exact absurd hS hor
        · exact absurd hF hor
  · intro hS hF
    unfold pattern_search_report
    rw [hS, hF]
    rfl

/-! ### The traversal-order view of `collect_docs_artifacts`

To state deduplication, the nested loops are flattened into the list of
accepted `(rule, document, match)` occurrences in traversal order — rules
outermost, then documents, then matches — and the cache into a single
first-occurrence pass (`dedupRun`).  The lemmas below prove the loop
implementation equal to this view. -/

/-- The accepted occurrences one pattern produces on one document: the
matches that pass the control-character guard, in order. -/
def matchTriples (pattern : SearchPattern) (dp : Doc) (ms : List String) :
    List (SearchPattern × Doc × String) :=
  (ms.filter (fun m => controlCount m.toList == 0)).map (fun m => (pattern, dp, m))

/-- The accepted occurrences of one pattern over the documents, with
binary-looking documents skipped whole. -/
def docTriples (find_all : SearchPattern → Doc → List String)
    (pattern : SearchPattern) (doc_parts : List Doc) :
    List (SearchPattern × Doc × String) :=
  doc_parts.flatMap fun dp =>
    if isBinaryLike dp.text then []
    else matchTriples pattern dp (find_all pattern dp)

/-- All accepted occurrences of a `collect_docs_artifacts` invocation, in
traversal order. -/
def acceptedOccurrences (find_all : SearchPattern → Doc → List String)
    (doc_parts : List Doc) (patterns : List SearchPattern) :
    List (SearchPattern × Doc × String) :=
  patterns.flatMap fun pattern => docTriples find_all pattern doc_parts

/-- First-occurrence deduplication over a flattened occurrence list,
threading the cache of seen match strings. -/
def dedupRun : List (SearchPattern × Doc × String) → List String →
    List String × List Artifact
  | [], seen => (seen, [])
  | t :: ts, seen =>
    if seen.contains t.2.2 then dedupRun ts seen
    else
      let r := dedupRun ts (t.2.2 :: seen)
      (r.1, ⟨t.1, t.2.2, t.2.1⟩ :: r.2)

theorem processMatches_eq_dedupRun (pattern : SearchPattern) (dp : Doc)
    (ms : List String) :
    ∀ (seen : List String) (arts : List Artifact),
      processMatches pattern dp ms (seen, arts) =
        ((dedupRun (matchTriples pattern dp ms) seen).1,
         arts ++ (dedupRun (matchTriples pattern dp ms) seen).2) := by
  induction ms with
  | nil => intro seen arts; simp [processMatches, matchTriples, dedupRun]
  | cons m ms ih =>
    intro seen arts
    by_cases hc : controlCount m.data = 0
    · have htrip : matchTriples pattern dp (m :: ms) =
          (pattern, dp, m) :: matchTriples pattern dp ms := by
        simp [matchTriples, List.filter_cons, hc]
      by_cases hseen : m ∈ seen
      · rw [show processMatches pattern dp (m :: ms) (seen, arts) =
            processMatches pattern dp ms (seen, arts) from by
              simp [processMatches, hc, hseen]]
        rw [htrip,
          show dedupRun ((pattern, dp, m) :: matchTriples pattern dp ms) seen =
            dedupRun (matchTriples pattern dp ms) seen from by
              simp [dedupRun, hseen],
          ih]
      · rw [show processMatches pattern dp (m :: ms) (seen, arts) =
            processMatches pattern dp ms (m :: seen, arts ++ [⟨pattern, m, dp⟩]) from by
              simp [processMatches, hc, hseen]]
        rw [htrip, ih,
          show dedupRun ((pattern, dp, m) :: matchTriples pattern dp ms) seen =
            ((dedupRun (matchTriples pattern dp ms) (m :: seen)).1,
             ⟨pattern, m, dp⟩ :: (dedupRun (matchTriples pattern dp ms) (m :: seen)).2)
            from by simp [dedupRun, hseen]]
        simp
    · have htrip : matchTriples pattern dp (m :: ms) = matchTriples pattern dp ms := by
        simp [matchTriples, List.filter_cons, hc]
      rw [show processMatches pattern dp (m :: ms) (seen, arts) =
          processMatches pattern dp ms (seen, arts) from by
            simp [processMatches, Nat.pos_of_ne_zero hc]]
      rw [htrip, ih]

theorem dedupRun_append (xs ys : List (SearchPattern × Doc × String)) :
    ∀ seen : List String,
      dedupRun (xs ++ ys) seen =
        ((dedupRun ys (dedupRun xs seen).1).1,
         (dedupRun xs seen).2 ++ (dedupRun ys (dedupRun xs seen).1).2) := by
  induction xs with
  | nil => intro seen; simp [dedupRun]
  | cons t ts ih =>
    intro seen
    by_cases hc : t.2.2 ∈ seen
    · rw [List.cons_append,
        show dedupRun ((t :: ts) : List _) seen = dedupRun ts seen from by
          simp [dedupRun, hc],
        show dedupRun (t :: (ts ++ ys)) seen = dedupRun (ts ++ ys) seen from by
          simp [dedupRun, hc]]
      exact ih seen
    · rw [List.cons_append,
        show dedupRun (t :: (ts ++ ys)) seen =
          ((dedupRun (ts ++ ys) (t.2.2 :: seen)).1,
           ⟨t.1, t.2.2, t.2.1⟩ :: (dedupRun (ts ++ ys) (t.2.2 :: seen)).2) from by
            simp [dedupRun, hc],
        show dedupRun ((t :: ts) : List _) seen =
          ((dedupRun ts (t.2.2 :: seen)).1,
           ⟨t.1, t.2.2, t.2.1⟩ :: (dedupRun ts (t.2.2 :: seen)).2) from by
            simp [dedupRun, hc],
        ih (t.2.2 :: seen)]
      simp

theorem collectDocsLoop_eq_dedupRun (find_all : SearchPattern → Doc → List String)
    (pattern : SearchPattern) (doc_parts : List Doc) :
    ∀ (seen : List String) (arts : List Artifact),
      collectDocsLoop find_all pattern doc_parts (seen, arts) =
        ((dedupRun (docTriples find_all pattern doc_parts) seen).1,
         arts ++ (dedupRun (docTriples find_all pattern doc_parts) seen).2) := by
  induction doc_parts with
  | nil => intro seen arts; simp [collectDocsLoop, docTriples, dedupRun]
  | cons dp dps ih =>
    intro seen arts
    have hflat : docTriples find_all pattern (dp :: dps) =
        (if isBinaryLike dp.text then []
         else matchTriples pattern dp (find_all pattern dp))
          ++ docTriples find_all pattern dps := by
      simp [docTriples]
    by_cases hb : isBinaryLike dp.text = true
    · rw [show collectDocsLoop find_all pattern (dp :: dps) (seen, arts) =
          collectDocsLoop find_all pattern dps (seen, arts) from by
            simp [collectDocsLoop, hb]]
      rw [hflat, if_pos hb, List.nil_append, ih]
    · rw [show collectDocsLoop find_all pattern (dp :: dps) (seen, arts) =
          collectDocsLoop find_all pattern dps
            (processMatches pattern dp (find_all pattern dp) (seen, arts)) from by
            simp [collectDocsLoop, hb]]
      rw [processMatches_eq_dedupRun, ih, hflat, if_neg hb, dedupRun_append]
      simp

theorem collectPatternsLoop_eq_dedupRun (find_all : SearchPattern → Doc → List String)
    (patterns : List SearchPattern) (doc_parts : List Doc) :
    ∀ (seen : List String) (arts : List Artifact),
      collectPatternsLoop find_all patterns doc_parts (seen, arts) =
        ((dedupRun (acceptedOccurrences find_all doc_parts patterns) seen).1,
         arts ++ (dedupRun (acceptedOccurrences find_all doc_parts patterns) seen).2) := by
  induction patterns with
  | nil => intro seen arts; simp [collectPatternsLoop, acceptedOccurrences, dedupRun]
  | cons pattern patterns ih =>
    intro seen arts
    have hflat : acceptedOccurrences find_all doc_parts (pattern :: patterns) =
        docTriples find_all pattern doc_parts
          ++ acceptedOccurrences find_all doc_parts patterns := by
      simp [acceptedOccurrences]
    rw [show collectPatternsLoop find_all (pattern :: patterns) doc_parts (seen, arts) =
        collectPatternsLoop find_all patterns doc_parts
          (collectDocsLoop find_all pattern doc_parts (seen, arts)) from by
          simp [collectPatternsLoop]]
    rw [collectDocsLoop_eq_dedupRun, ih, hflat, dedupRun_append]
    simp

theorem collect_docs_artifacts_eq_dedupRun (find_all : SearchPattern → Doc → List String)
    (doc_parts : List Doc) (patterns : List SearchPattern) :
    collect_docs_artifacts find_all doc_parts patterns =
      (dedupRun (acceptedOccurrences find_all doc_parts patterns) []).2 := by
  rw [collect_docs_artifacts, collectPatternsLoop_eq_dedupRun]
  simp

theorem dedupRun_filter_of_seen (s : String) :
    ∀ (ts : List (SearchPattern × Doc × String)) (seen : List String),
      s ∈ seen →
      ((dedupRun ts seen).2.filter (fun a => a.matchStr == s)) = [] := by
  intro ts
  induction ts with
  | nil => intro seen _; simp [dedupRun]
  | cons t ts ih =>
    intro seen hs
    by_cases hc : t.2.2 ∈ seen
    · rw [show dedupRun ((t :: ts) : List _) seen = dedupRun ts seen from by
        simp [dedupRun, hc]]
      exact ih seen hs
    · rw [show dedupRun ((t :: ts) : List _) seen =
          ((dedupRun ts (t.2.2 :: seen)).1,
           ⟨t.1, t.2.2, t.2.1⟩ :: (dedupRun ts (t.2.2 :: seen)).2) from by
            simp [dedupRun, hc]]
      have hneq : (t.2.2 == s) = false := by
        rw [beq_eq_false_iff_ne]
        intro heq
        rw [heq] at hc
        exact hc hs
      rw [List.filter_cons]
      simp only [show ((⟨t.1, t.2.2, t.2.1⟩ : Artifact).matchStr == s) = false from hneq,
        Bool.false_eq_true, if_false]
      exact ih (t.2.2 :: seen) (List.mem_cons_of_mem _ hs)

theorem dedupRun_filter_characterization (s : String) :
    ∀ (ts : List (SearchPattern × Doc × String)) (seen : List String),
      s ∉ seen →
      ((dedupRun ts seen).2.filter (fun a => a.matchStr == s)) =
        (match ts.find? (fun t => t.2.2 == s) with
         | none => []
         | some t => [⟨t.1, t.2.2, t.2.1⟩]) := by
  intro ts
  induction ts with
  | nil => intro seen _; simp [dedupRun]
  | cons t ts ih =>
    intro seen hs
    by_cases hc : t.2.2 ∈ seen
    · have hneq : (t.2.2 == s) = false := by
        rw [beq_eq_false_iff_ne]
        intro heq
        rw [heq] at hc
        exact hs hc
      rw [show dedupRun ((t :: ts) : List _) seen = dedupRun ts seen from by
          simp [dedupRun, hc],
        List.find?_cons_of_neg _ (by simp [hneq])]
      exact ih seen hs
    · rw [show dedupRun ((t :: ts) : List _) seen =
          ((dedupRun ts (t.2.2 :: seen)).1,
           ⟨t.1, t.2.2, t.2.1⟩ :: (dedupRun ts (t.2.2 :: seen)).2) from by
            simp [dedupRun, hc]]
      by_cases heq : t.2.2 = s
      · rw [List.find?_cons_of_pos _ (by simp [heq])]
        rw [List.filter_cons]
        simp only [show ((⟨t.1, t.2.2, t.2.1⟩ : Artifact).matchStr == s) = true from by
          simp [heq], if_true]
        rw [dedupRun_filter_of_seen s ts (t.2.2 :: seen)
          (by rw [heq]; exact List.mem_cons_self _ _)]
      · have hneq : (t.2.2 == s) = false := beq_eq_false_iff_ne.mpr heq
        rw [List.find?_cons_of_neg _ (by simp [hneq])]
        rw [List.filter_cons]
        simp only [show ((⟨t.1, t.2.2, t.2.1⟩ : Artifact).matchStr == s) = false from hneq,
          Bool.false_eq_true, if_false]
        refine ih (t.2.2 :: seen) ?_
        intro hmem
        rcases List.mem_cons.mp hmem with h1 | h1
        · exact heq h1.symm
        · exact hs h1

/-- Claim C6.  Per invocation of `collect_docs_artifacts`, for every match
string `s` the result holds exactly one artifact with match `s` when some
rule produced `s` on some document (and none otherwise), regardless of
how many documents or rules produced it; that artifact carries the rule
and document of the first accepted occurrence of `s` in traversal
order. -/
theorem collect_docs_artifacts_dedup (find_all : SearchPattern → Doc → List String)
    (doc_parts : List Doc) (patterns : List SearchPattern) (s : String) :
    ((collect_docs_artifacts find_all doc_parts patterns).filter
        (fun a => a.matchStr == s)) =
      (match (acceptedOccurrences find_all doc_parts patterns).find?
          (fun t => t.2.2 == s) with
       | none => []
       | some t => [⟨t.1, t.2.2, t.2.1⟩]) := by
  rw [collect_docs_artifacts_eq_dedupRun]
  exact dedupRun_filter_characterization s _ [] (List.not_mem_nil s)

theorem mem_dedupRun_of_mem (a : Artifact) :
    ∀ (ts : List (SearchPattern × Doc × String)) (seen : List String),
      a ∈ (dedupRun ts seen).2 → ∃ t ∈ ts, a = ⟨t.1, t.2.2, t.2.1⟩ := by
  intro ts
  induction ts with
  | nil => intro seen h; simp [dedupRun] at h
  | cons t ts ih =>
    intro seen h
    by_cases hc : t.2.2 ∈ seen
    · rw [show dedupRun ((t :: ts) : List _) seen = dedupRun ts seen from by
        simp [dedupRun, hc]] at h
      obtain ⟨u, hu, ha⟩ := ih seen h
      exact ⟨u, List.mem_cons_of_mem _ hu, ha⟩
    · rw [show dedupRun ((t :: ts) : List _) seen =
          ((dedupRun ts (t.2.2 :: seen)).1,
           ⟨t.1, t.2.2, t.2.1⟩ :: (dedupRun ts (t.2.2 :: seen)).2) from by
            simp [dedupRun, hc]] at h
      rcases List.mem_cons.mp h with ha | ha
      · exact ⟨t, List.mem_cons_self _ _, ha⟩
      · obtain ⟨u, hu, ha⟩ := ih (t.2.2 :: seen) ha
        exact ⟨u, List.mem_cons_of_mem _ hu, ha⟩

/-- Claim C8.  A document whose text holds a null byte or more than 30
control characters (other than newline, carriage return, tab) among its
first 1000 characters yields no artifact for any rule, and every
artifact's match string is free of such control characters. -/
theorem binary_doc_yields_no_artifact (find_all : SearchPattern → Doc → List String)
    (doc_parts : List Doc) (patterns : List SearchPattern) (d : Doc) (a : Artifact)
    (hbad : isBinaryLike d.text = true)
    (ha : a ∈ collect_docs_artifacts find_all doc_parts patterns) :
    a.source ≠ d ∧ controlCount a.matchStr.toList = 0 := by
  rw [collect_docs_artifacts_eq_dedupRun] at ha
  obtain ⟨t, ht, rfl⟩ := mem_dedupRun_of_mem a _ [] ha
  rw [acceptedOccurrences, List.mem_flatMap] at ht
  obtain ⟨pattern, _, ht⟩ := ht
  rw [docTriples, List.mem_flatMap] at ht
  obtain ⟨dp, _, ht⟩ := ht
  by_cases hb : isBinaryLike dp.text = true
  · rw [if_pos hb] at ht
    simp at ht
  · rw [if_neg hb] at ht
    rw [matchTriples, List.mem_map] at ht
    obtain ⟨m, hm, ht⟩ := ht
    rw [List.mem_filter] at hm
    have hcc := hm.2
    cases ht
    constructor
    · intro hsd
      rw [show (⟨pattern, m, dp⟩ : Artifact).source = dp from rfl] at hsd
      rw [hsd] at hb
      exact hb hbad
    · rw [show (⟨pattern, m, dp⟩ : Artifact).matchStr = m from rfl]
      exact Nat.beq_eq_true_eq _ _ ▸ hcc

/-- Witness for C8 at a concrete invocation: with a binary-looking document
(a null byte) and a clean one in the list, the artifact extracted from
the clean document does not stem from the binary one and its match is
control-free. -/
theorem binary_doc_yields_no_artifact_witness :
    (⟨⟨"r", "x", []⟩, "80", ⟨"d", none, "port 80"⟩⟩ : Artifact).source
        ≠ (⟨"b", none, "\x00"⟩ : Doc)
    ∧ controlCount (⟨⟨"r", "x", []⟩, "80", ⟨"d", none, "port 80"⟩⟩ : Artifact).matchStr.toList
        = 0 :=
  binary_doc_yields_no_artifact (fun _ _ => ["80"])
    [⟨"b", none, "\x00"⟩, ⟨"d", none, "port 80"⟩] [⟨"r", "x", []⟩]
    ⟨"b", none, "\x00"⟩ ⟨⟨"r", "x", []⟩, "80", ⟨"d", none, "port 80"⟩⟩
    (by decide) (by decide)

end Ducku
